import Mathlib

/-!
Verification of the GraphLibrary facade (src/source/graph.js) against its
natural-language specification.  The mutable JavaScript state of a
`GraphLibrary` instance (`_nodes`, `_edges`, `_clusters`, `options`) is
embedded as the structure `GraphState`; the mutating methods `addNode`,
`addEdge`, `addCluster` are embedded as pure state transformers returning
the new state together with an optional thrown-error message; the `render`
method, whose effects are DOM and grapher calls, is embedded as the ordered
trace of observable actions it performs (`renderEvents`), parameterised by
the outcome of the awaited asynchronous layout step.  The event emitter
(`on` / `_emit`) is embedded over callbacks modelled as functions into
`Except`.  The dagre rank-assignment stage lives in dagre.js, which is not
part of the sources; it is modelled from the specification where needed.
-/

/-- JavaScript truthiness of an optional string field: `undefined` and the
empty string are falsy (source guards like `!nodeOpts.id`). -/
def truthy (s : Option String) : Bool :=
  match s with
  | none => false
  | some str => decide (str ≠ "")

/-- JavaScript `x || d` for an optional numeric field: `undefined` and `0`
are falsy and give the default (source line `edgeOpts.minlen || 1`). -/
def jsOrNat (x : Option Nat) (d : Nat) : Nat :=
  match x with
  | none => d
  | some 0 => d
  | some (n + 1) => n + 1

/-- Lookup in an insertion-ordered association list, the embedding of a
JavaScript `Map` (`Map.get`). -/
def lookupKey {α : Type} (m : List (String × α)) (k : String) : Option α :=
  match m with
  | [] => none
  | p :: rest => if p.1 = k then some p.2 else lookupKey rest k

/-- Key-membership test for the association-list embedding of a JavaScript
`Map` (`Map.has`). -/
def hasKey {α : Type} (m : List (String × α)) (k : String) : Bool :=
  match m with
  | [] => false
  | p :: rest => if p.1 = k then true else hasKey rest k

/-- Keys of the association list, in insertion order. -/
def keysOf {α : Type} (m : List (String × α)) : List String :=
  m.map Prod.fst

/-- User-supplied node options (`addNode` parameter). Absent fields are
`none`. -/
structure NodeOpts where
  id : Option String := none
  label : Option String := none
  parent : Option String := none
  styleClass : Option String := none
deriving DecidableEq

/-- User-supplied edge options (`addEdge` parameter). The JavaScript fields
`from` and `to` are Lean keywords and are embedded as `fromId` / `toId`. -/
structure EdgeOpts where
  fromId : Option String := none
  toId : Option String := none
  id : Option String := none
  label : Option String := none
  styleClass : Option String := none
  minlen : Option Nat := none
  weight : Option Nat := none
deriving DecidableEq

/-- User-supplied cluster options (`addCluster` parameter). -/
structure ClusterOpts where
  id : Option String := none
  label : Option String := none
  parent : Option String := none
  styleClass : Option String := none
deriving DecidableEq

/-- The mutable state of a `GraphLibrary` instance: the constructor options
and the three collections `_nodes` (a `Map`), `_edges` (an array) and
`_clusters` (a `Map`). -/
structure GraphState where
  compound : Bool := true
  direction : String := "TB"
  nodeSep : Nat := 50
  rankSep : Nat := 50
  nodes : List (String × NodeOpts) := []
  edges : List EdgeOpts := []
  clusters : List (String × ClusterOpts) := []
deriving DecidableEq

/-- Embedding of `GraphLibrary.addNode` (graph.js lines 72-81).  The input
`none` models a call with no argument.  The result pairs the state after
the call with `some message` when the method throws; the throw happens
before any mutation, so the state component is then the input state.  A
duplicate id produces a console warning and returns without mutating.  A
stored node gets `label` defaulted to its id (`\x7b label: nodeOpts.id,
...nodeOpts \x7d`). -/
def addNode (g : GraphState) (nodeOpts : Option NodeOpts) : GraphState × Option String :=
  match nodeOpts with
  | none => (g, some "Node options with an id must be provided.")
  | some opts =>
    if truthy opts.id = false then
      (g, some "Node options with an id must be provided.")
    else
      let key := opts.id.getD ""
      if hasKey g.nodes key || hasKey g.clusters key then
        (g, none)
      else
        ({ g with nodes := g.nodes ++ [(key, { opts with label := some (opts.label.getD key) })] },
          none)

/-- Embedding of `GraphLibrary.addEdge` (graph.js lines 94-99).  Only the
presence of `from` and `to` is validated; endpoint existence is not
checked, and the edge is pushed onto `_edges` unconditionally otherwise. -/
def addEdge (g : GraphState) (edgeOpts : Option EdgeOpts) : GraphState × Option String :=
  match edgeOpts with
  | none => (g, some "Edge options with from and to IDs must be provided.")
  | some opts =>
    if truthy opts.fromId = false ∨ truthy opts.toId = false then
      (g, some "Edge options with from and to IDs must be provided.")
    else
      ({ g with edges := g.edges ++ [opts] }, none)

/-- Embedding of `GraphLibrary.addCluster` (graph.js lines 113-126).  When
the instance is not compound the method warns and returns before any
validation; otherwise it validates the id, rejects duplicates with a
warning, and stores the cluster with `label` defaulted to its id. -/
def addCluster (g : GraphState) (clusterOpts : Option ClusterOpts) : GraphState × Option String :=
  if g.compound = false then
    (g, none)
  else
    match clusterOpts with
    | none => (g, some "Cluster options with an id must be provided.")
    | some opts =>
      if truthy opts.id = false then
        (g, some "Cluster options with an id must be provided.")
      else
        let key := opts.id.getD ""
        if hasKey g.nodes key || hasKey g.clusters key then
          (g, none)
        else
          ({ g with clusters :=
              g.clusters ++ [(key, { opts with label := some (opts.label.getD key) })] },
            none)

/-- Observable actions performed by `GraphLibrary.render`, in order.  Each
constructor corresponds to a numbered step or per-entity call in graph.js
lines 134-293. -/
inductive RenderEvent where
  | clearContainer : RenderEvent
  | newGrapher (compound : Bool) : RenderEvent
  | setClusterNode (id : String) : RenderEvent
  | setNode (id : String) : RenderEvent
  | setParent (child parentId : String) : RenderEvent
  | skipEdge (src tgt : String) : RenderEvent
  | setEdge (src tgt : String) (minlen weight : Nat) : RenderEvent
  | setOptions (direction : String) (nodesep ranksep : Nat) : RenderEvent
  | appendSvg : RenderEvent
  | build : RenderEvent
  | measure : RenderEvent
  | layoutStart : RenderEvent
  | applyCustomStyles : RenderEvent
  | update : RenderEvent
  | fitSvg : RenderEvent
  | attachListeners : RenderEvent
deriving DecidableEq

/-- Outcome of the awaited `grapherInstance.layout()` promise: resolution
with a string value, or rejection. -/
inductive LayoutOutcome where
  | resolve (value : String) : LayoutOutcome
  | reject (msg : String) : LayoutOutcome
deriving DecidableEq

/-- Embedding of render step 5's direction normalisation (graph.js lines
248-251): `TB` and `BT` collapse to the internal value `vertical`; every
other direction is forwarded unchanged. -/
def normalizeDirection (d : String) : String :=
  if d = "TB" ∨ d = "BT" then "vertical" else d

/-- Whether `grapherInstance.node(key)` finds an entry during render step 4:
steps 1-2 called `setNode` for every cluster and every node, keyed by id. -/
def grapherHas (g : GraphState) (key : String) : Bool :=
  hasKey g.clusters key || hasKey g.nodes key

/-- Events produced for one stored edge in render step 4 (graph.js lines
220-244): an edge with a missing endpoint is skipped with a warning,
otherwise `setEdge` is called with `minlen` and `weight` defaulted through
JavaScript `|| 1`. -/
def edgeEvents (g : GraphState) (opts : EdgeOpts) : List RenderEvent :=
  if grapherHas g (opts.fromId.getD "") = false ∨ grapherHas g (opts.toId.getD "") = false then
    [RenderEvent.skipEdge (opts.fromId.getD "") (opts.toId.getD "")]
  else
    [RenderEvent.setEdge (opts.fromId.getD "") (opts.toId.getD "")
      (jsOrNat opts.minlen 1) (jsOrNat opts.weight 1)]

/-- `setParent` calls for clusters in render step 3. -/
def clusterParentEvents (g : GraphState) : List RenderEvent :=
  g.clusters.filterMap (fun p =>
    if truthy p.2.parent then some (RenderEvent.setParent p.1 (p.2.parent.getD "")) else none)

/-- `setParent` calls for nodes in render step 3. -/
def nodeParentEvents (g : GraphState) : List RenderEvent :=
  g.nodes.filterMap (fun p =>
    if truthy p.2.parent then some (RenderEvent.setParent p.1 (p.2.parent.getD "")) else none)

/-- Render step 3 runs only for a compound instance. -/
def parentEvents (g : GraphState) : List RenderEvent :=
  if g.compound then clusterParentEvents g ++ nodeParentEvents g else []

/-- Events of render steps 1-5: grapher construction, cluster and node
registration, parent relationships, edge registration and the options
assignment, in source order. -/
def renderMidEvents (g : GraphState) : List RenderEvent :=
  RenderEvent.newGrapher g.compound ::
    (g.clusters.map (fun p => RenderEvent.setClusterNode p.1)
      ++ g.nodes.map (fun p => RenderEvent.setNode p.1)
      ++ parentEvents g
      ++ g.edges.flatMap (edgeEvents g)
      ++ [RenderEvent.setOptions (normalizeDirection g.direction) g.nodeSep g.rankSep])

/-- Everything render does before the SVG element is created: the container
is cleared first (graph.js line 135), then steps 1-5 run. -/
def renderSetupEvents (g : GraphState) : List RenderEvent :=
  RenderEvent.clearContainer :: renderMidEvents g

/-- Render steps 6-8: append the SVG root, build, measure, then start the
awaited layout. -/
def renderPhaseEvents : List RenderEvent :=
  [RenderEvent.appendSvg, RenderEvent.build, RenderEvent.measure, RenderEvent.layoutStart]

/-- Render steps 9-12, reached only after a successful layout. -/
def renderTailEvents : List RenderEvent :=
  [RenderEvent.applyCustomStyles, RenderEvent.update, RenderEvent.fitSvg,
    RenderEvent.attachListeners]

/-- Whether the layout outcome lets render proceed past step 8: a rejection
is caught and logged, and the sentinel resolution value
`graph-layout-cancelled` triggers an early normal return. -/
def layoutSucceeded (lo : LayoutOutcome) : Bool :=
  match lo with
  | LayoutOutcome.resolve v => if v = "graph-layout-cancelled" then false else true
  | LayoutOutcome.reject _ => false

/-- Events of render after the layout await resolves. -/
def renderPostEvents (lo : LayoutOutcome) : List RenderEvent :=
  if layoutSucceeded lo then renderTailEvents else []

/-- The ordered action trace of one `render` call on the given state
snapshot, given the layout outcome, for a run whose step 3 completes: the
grapher `setParent` calls of step 3 can throw on cycle-creating parent
data, and the unconditional trace including that path is
`renderAttemptEvents` below, which coincides with this one exactly when
`renderParentsOk` holds. -/
def renderEvents (g : GraphState) (lo : LayoutOutcome) : List RenderEvent :=
  renderSetupEvents g ++ renderPhaseEvents ++ renderPostEvents lo

/-- Embedding of `GraphLibrary.render` as a whole (graph.js lines 134-293)
for a run whose step 3 completes: the returned promise and the trace it
produces.  A layout rejection is caught inside render (lines 277-280) and a
cancellation returns early (lines 273-276), so such a run resolves
(`Except.ok`) in every branch; the unconditional outcome including the
step 3 `setParent` throw is `renderRun` below, which coincides with this
one exactly when `renderParentsOk` holds. -/
def render (g : GraphState) (lo : LayoutOutcome) : Except String (List RenderEvent) :=
  match lo with
  | LayoutOutcome.reject _ => Except.ok (renderSetupEvents g ++ renderPhaseEvents)
  | LayoutOutcome.resolve v =>
    if v = "graph-layout-cancelled" then
      Except.ok (renderSetupEvents g ++ renderPhaseEvents)
    else
      Except.ok (renderSetupEvents g ++ renderPhaseEvents ++ renderTailEvents)

/-- Classifies the pipeline-phase actions of render (SVG creation, build,
measure, layout, and the four post-layout steps). -/
def isPipelinePhase (e : RenderEvent) : Bool :=
  match e with
  | RenderEvent.appendSvg => true
  | RenderEvent.build => true
  | RenderEvent.measure => true
  | RenderEvent.layoutStart => true
  | RenderEvent.applyCustomStyles => true
  | RenderEvent.update => true
  | RenderEvent.fitSvg => true
  | RenderEvent.attachListeners => true
  | _ => false

/-- Classifies the actions that modify the container's child list. -/
def touchesContainer (e : RenderEvent) : Bool :=
  match e with
  | RenderEvent.clearContainer => true
  | RenderEvent.appendSvg => true
  | _ => false

/-- Effect of one render action on the number of children of the container
element: `innerHTML = ''` empties it, `appendChild(svgElement)` adds one. -/
def applyToContainer (c : Nat) (e : RenderEvent) : Nat :=
  match e with
  | RenderEvent.clearContainer => 0
  | RenderEvent.appendSvg => c + 1
  | _ => c

/-- Number of children of the container after a trace of render actions,
starting from `c0` children. -/
def containerChildren (c0 : Nat) (es : List RenderEvent) : Nat :=
  es.foldl applyToContainer c0

/-- An edge as handed to the layout engine: dagre's `v`, `w`, `minlen`. -/
structure LayoutEdge where
  v : String
  w : String
  minlen : Nat
deriving DecidableEq

/-- The edges actually passed to the layout engine by render step 4: edges
with a missing endpoint are skipped, and `minlen` is defaulted through
JavaScript `edgeOpts.minlen || 1` (graph.js line 238). -/
def layoutEdges (g : GraphState) : List LayoutEdge :=
  g.edges.filterMap (fun o =>
    if grapherHas g (o.fromId.getD "") = false ∨ grapherHas g (o.toId.getD "") = false then none
    else some { v := o.fromId.getD "", w := o.toId.getD "", minlen := jsOrNat o.minlen 1 })

/-- Modelled from the spec: the rank-assignment stage of the layered layout
engine (dagre.js, used by `grapher.Graph.layout`, is not among the source
files).  Following specification section 4.2 stage 1, ranks are assigned by
the longest-path heuristic: a node's rank is the maximum over its incoming
edges of the source rank plus the edge's minimum rank span, zero for a
source node.  This is the candidate-rank computation for one node given the
ranks already assigned. -/
def incomingRank (es : List LayoutEdge) (ranks : List (String × Int)) (n : String) : Int :=
  (es.filterMap (fun e =>
    if e.w = n then (lookupKey ranks e.v).map (fun r => r + (e.minlen : Int)) else none)).foldl
    max 0

/-- Modelled from the spec: one step of longest-path ranking, assigning the
next node of the topological order its rank. -/
def rankStep (es : List LayoutEdge) (ranks : List (String × Int)) (n : String) :
    List (String × Int) :=
  ranks ++ [(n, incomingRank es ranks n)]

/-- Modelled from the spec: longest-path rank assignment over the nodes in
a topological order of the (acyclic) graph, as in specification section 4.2
stage 1.  A successful layout presupposes such an order exists. -/
def assignRanks (es : List LayoutEdge) (topo : List String) : List (String × Int) :=
  topo.foldl (rankStep es) []

/-- Result of invoking one registered event callback inside `_emit`'s
try/catch (graph.js lines 374-384): the callback either returns or its
exception is logged; it is never rethrown. -/
inductive EmitOutcome where
  | ok : EmitOutcome
  | logged (msg : String) : EmitOutcome
deriving DecidableEq

/-- Runs one callback on the event data under `_emit`'s try/catch. -/
def runCb {α : Type} (cb : α → Except String Unit) (d : α) : EmitOutcome :=
  match cb d with
  | Except.ok _ => EmitOutcome.ok
  | Except.error m => EmitOutcome.logged m

/-- Embedding of `GraphLibrary.on` (graph.js lines 300-309): a non-function
callback is ignored with a warning; otherwise the callback is appended to
the listener list of its event type, creating the list on first use. -/
def jsOn {α : Type} (ls : List (String × List (α → Except String Unit))) (eventType : String)
    (callback : α → Except String Unit) (isFunction : Bool) :
    List (String × List (α → Except String Unit)) :=
  if isFunction = false then ls
  else if hasKey ls eventType then
    ls.map (fun p => if p.1 = eventType then (p.1, p.2 ++ [callback]) else p)
  else ls ++ [(eventType, [callback])]

/-- Embedding of `GraphLibrary._emit` (graph.js lines 374-384): the
listeners registered for the event type are invoked in order with the
event data, each inside its own try/catch; the list of per-listener
outcomes is the observable result, and no exception escapes. -/
def jsEmit {α : Type} (ls : List (String × List (α → Except String Unit))) (eventType : String)
    (d : α) : List EmitOutcome :=
  match lookupKey ls eventType with
  | none => []
  | some cbs => cbs.map (fun cb => runCb cb d)

/-- The state of a freshly constructed `GraphLibrary` with default
options. -/
def graph0 : GraphState := {}

/-- Node options carrying just the id `a`. -/
def nodeA : NodeOpts := { id := some "a" }

/-- Node options carrying just the id `b`. -/
def nodeB : NodeOpts := { id := some "b" }

/-- Cluster options reusing the node id `a`. -/
def clusterA : ClusterOpts := { id := some "a" }

/-- State after adding node `a` to a fresh instance. -/
def graphA : GraphState := (addNode graph0 (some nodeA)).1

/-- State after adding nodes `a` and `b`. -/
def graphAB : GraphState := (addNode graphA (some nodeB)).1

/-- Edge options from `a` to the unregistered id `zz`. -/
def edgeDangling : EdgeOpts := { fromId := some "a", toId := some "zz" }

/-- Edge options from `a` to `b` with no explicit minlen. -/
def edgeAB : EdgeOpts := { fromId := some "a", toId := some "b" }

/-- State after adding nodes `a`, `b` and the edge between them. -/
def graphABE : GraphState := (addEdge graphAB (some edgeAB)).1

/-- A topological order for `graphABE`. -/
def topoAB : List String := ["a", "b"]

/-- Node options with no id, for exercising the validation path. -/
def nodeBad : NodeOpts := {}

/-- Edge options missing the `to` field. -/
def edgeBad : EdgeOpts := { fromId := some "a" }

/-- The state of a non-compound instance. -/
def graphNC : GraphState := { compound := false }

/-- A callback that always throws. -/
def cbBoom : Nat → Except String Unit := fun _ => Except.error "boom"

/-- A callback that always succeeds. -/
def cbFine : Nat → Except String Unit := fun _ => Except.ok ()

/-- The (child, parent) pairs for which render step 3 invokes
`grapherInstance.setParent`, in call order: clusters with a truthy parent
first, then nodes, and only on a compound instance (graph.js lines
205-217). -/
def parentCalls (g : GraphState) : List (String × String) :=
  if g.compound then
    g.clusters.filterMap (fun p =>
      if truthy p.2.parent then some (p.1, p.2.parent.getD "") else none)
    ++ g.nodes.filterMap (fun p =>
      if truthy p.2.parent then some (p.1, p.2.parent.getD "") else none)
  else []

/-- Modelled from the spec: `grapher.Graph.setParent` lives in grapher.js,
which is not among the source files; specification section 4.1 and the
grapher API documentation in the repository state that it throws when the
new relationship would create a containment cycle.  `inAncestry pm fuel
target node` walks up the parent map from `node` and reports whether
`target` is reached (including `node = target`); the fuel bounds the
walk and `pm.length + 1` visits suffice on the acyclic maps that
successful calls build. -/
def inAncestry (pm : List (String × String)) : Nat → String → String → Bool
  | 0, _, _ => false
  | fuel + 1, target, node =>
    if node = target then true
    else
      match lookupKey pm node with
      | none => false
      | some p => inAncestry pm fuel target p

/-- Modelled from the spec: `setParent child parent` creates a containment
cycle exactly when `child` already lies on the ancestor chain of `parent`
— including the self-parent case `child = parent` — so that adding the
relationship would make `child` its own ancestor. -/
def createsCycle (pm : List (String × String)) (child parentId : String) : Bool :=
  inAncestry pm (pm.length + 1) child parentId

/-- Modelled from the spec: running render step 3's `setParent` calls in
order against the fresh grapher instance's parent map: the first
cycle-creating call throws, aborting the run; otherwise each relationship
is recorded. -/
def runSetParents (pm : List (String × String)) :
    List (String × String) → Except String (List (String × String))
  | [] => Except.ok pm
  | c :: rest =>
    if createsCycle pm c.1 c.2 then Except.error "Setting parent would create a cycle."
    else runSetParents (pm ++ [c]) rest

/-- Whether render step 3 completes on this state without the modelled
`setParent` cycle throw. -/
def renderParentsOk (g : GraphState) : Bool :=
  match runSetParents [] (parentCalls g) with
  | Except.ok _ => true
  | Except.error _ => false

/-- The `setParent` actions actually invoked during step 3: every call up
to and including the first cycle-creating one, which throws. -/
def attemptedParentEvents (pm : List (String × String)) :
    List (String × String) → List RenderEvent
  | [] => []
  | c :: rest =>
    if createsCycle pm c.1 c.2 then [RenderEvent.setParent c.1 c.2]
    else RenderEvent.setParent c.1 c.2 :: attemptedParentEvents (pm ++ [c]) rest

/-- The unconditional action trace of one render call, refining
`renderEvents` by the modelled `setParent` cycle throw of step 3: the
container is cleared first in every run, and on a throw the run stops
inside step 3, before the SVG element of step 6 is ever created.  When
step 3 completes this trace coincides with `renderEvents`
(`renderAttempt_agrees_on_success`). -/
def renderAttemptEvents (g : GraphState) (lo : LayoutOutcome) : List RenderEvent :=
  RenderEvent.clearContainer :: RenderEvent.newGrapher g.compound ::
    (g.clusters.map (fun p => RenderEvent.setClusterNode p.1)
      ++ g.nodes.map (fun p => RenderEvent.setNode p.1)
      ++ attemptedParentEvents [] (parentCalls g)
      ++ (if renderParentsOk g then
            g.edges.flatMap (edgeEvents g)
              ++ [RenderEvent.setOptions (normalizeDirection g.direction) g.nodeSep g.rankSep]
              ++ renderPhaseEvents ++ renderPostEvents lo
          else []))

/-- The promise outcome of one render call under the refined model: only
the layout await sits in a try/catch (graph.js lines 271-280), so a
`setParent` throw during step 3 escapes and rejects the promise; otherwise
render resolves exactly as `render` does. -/
def renderRun (g : GraphState) (lo : LayoutOutcome) : Except String (List RenderEvent) :=
  if renderParentsOk g then Except.ok (renderAttemptEvents g lo)
  else Except.error "Setting parent would create a cycle."

/-- Cluster options naming themselves as their own parent. -/
def clusterSelf : ClusterOpts := { id := some "a", parent := some "a" }

/-- State after adding the self-parenting cluster to a fresh compound
instance; `addCluster` stores it without validating the parent field. -/
def graphCycle : GraphState := (addCluster graph0 (some clusterSelf)).1

theorem lookupKey_nil {α : Type} (k : String) : lookupKey ([] : List (String × α)) k = none := rfl

theorem lookupKey_cons {α : Type} (p : String × α) (rest : List (String × α)) (k : String) :
    lookupKey (p :: rest) k = if p.1 = k then some p.2 else lookupKey rest k := rfl

theorem keysOf_cons {α : Type} (p : String × α) (rest : List (String × α)) :
    keysOf (p :: rest) = p.1 :: keysOf rest := rfl

theorem lookupKey_append_some {α : Type} (m1 m2 : List (String × α)) (k : String) (v : α)
    (h : lookupKey m1 k = some v) : lookupKey (m1 ++ m2) k = some v := by
  induction m1 with
  | nil => rw [lookupKey_nil] at h; cases h
  | cons p rest ih =>
    rw [lookupKey_cons] at h
    rw [List.cons_append, lookupKey_cons]
    by_cases hk : p.1 = k
    · rw [if_pos hk] at h ⊢; exact h
    · rw [if_neg hk] at h ⊢; exact ih h

theorem lookupKey_append_none {α : Type} (m1 m2 : List (String × α)) (k : String)
    (h : lookupKey m1 k = none) : lookupKey (m1 ++ m2) k = lookupKey m2 k := by
  induction m1 with
  | nil => rfl
  | cons p rest ih =>
    rw [lookupKey_cons] at h
    rw [List.cons_append, lookupKey_cons]
    by_cases hk : p.1 = k
    · rw [if_pos hk] at h; cases h
    · rw [if_neg hk] at h ⊢; exact ih h

theorem lookupKey_isSome_of_mem {α : Type} (m : List (String × α)) (k : String)
    (h : k ∈ keysOf m) : ∃ v, lookupKey m k = some v := by
  induction m with
  | nil => cases h
  | cons p rest ih =>
    rw [lookupKey_cons]
    by_cases hk : p.1 = k
    · exact ⟨p.2, by rw [if_pos hk]⟩
    · rw [if_neg hk]
      apply ih
      rw [keysOf_cons, List.mem_cons] at h
      rcases h with h | h
      · exact absurd h.symm hk
      · exact h

theorem lookupKey_eq_none_of_not_mem {α : Type} (m : List (String × α)) (k : String)
    (h : k ∉ keysOf m) : lookupKey m k = none := by
  induction m with
  | nil => rfl
  | cons p rest ih =>
    rw [keysOf_cons, List.mem_cons] at h
    push_neg at h
    rw [lookupKey_cons, if_neg (fun hp => h.1 hp.symm)]
    exact ih h.2

theorem foldl_max_le_init (l : List Int) : ∀ a : Int, a ≤ l.foldl max a := by
  induction l with
  | nil => intro a; exact le_refl a
  | cons b t ih => intro a; exact le_trans (le_max_left a b) (ih (max a b))

theorem mem_le_foldl_max (l : List Int) : ∀ a x : Int, x ∈ l → x ≤ l.foldl max a := by
  induction l with
  | nil => intro a x hx; cases hx
  | cons b t ih =>
    intro a x hx
    rcases List.mem_cons.mp hx with rfl | h
    · exact le_trans (le_max_right a x) (foldl_max_le_init t (max a x))
    · exact ih (max a b) x h

theorem keysOf_foldl_rankStep (es : List LayoutEdge) (topo : List String) :
    ∀ acc : List (String × Int),
      keysOf (List.foldl (rankStep es) acc topo) = keysOf acc ++ topo := by
  induction topo with
  | nil => intro acc; simp
  | cons n t ih =>
    intro acc
    rw [List.foldl_cons, ih]
    simp [rankStep, keysOf]

theorem foldl_rankStep_prefix (es : List LayoutEdge) (topo : List String) :
    ∀ acc : List (String × Int), ∃ rest, List.foldl (rankStep es) acc topo = acc ++ rest := by
  induction topo with
  | nil => intro acc; exact ⟨[], by simp⟩
  | cons n t ih =>
    intro acc
    rw [List.foldl_cons]
    obtain ⟨rest, hrest⟩ := ih (rankStep es acc n)
    exact ⟨(n, incomingRank es acc n) :: rest, by rw [hrest]; simp [rankStep]⟩

theorem jsOrNat_one_le (x : Option Nat) : 1 ≤ jsOrNat x 1 := by
  match x with
  | none => exact le_refl 1
  | some 0 => exact le_refl 1
  | some (n + 1) => exact Nat.succ_le_succ (Nat.zero_le n)

theorem edgeEvents_shape (g : GraphState) (o : EdgeOpts) (e : RenderEvent)
    (he : e ∈ edgeEvents g o) :
    (∃ s t, e = RenderEvent.skipEdge s t) ∨ (∃ s t m w, e = RenderEvent.setEdge s t m w) := by
  unfold edgeEvents at he
  split at he
  · exact Or.inl ⟨_, _, (List.mem_singleton.mp he)⟩
  · exact Or.inr ⟨_, _, _, _, (List.mem_singleton.mp he)⟩

theorem edgeEvents_setEdge_endpoints (g : GraphState) (o : EdgeOpts) (s t : String) (m w : Nat)
    (he : RenderEvent.setEdge s t m w ∈ edgeEvents g o) :
    grapherHas g s = true ∧ grapherHas g t = true := by
  unfold edgeEvents at he
  split at he
  · cases List.mem_singleton.mp he
  · rename_i hcond
    push_neg at hcond
    have h1 := List.mem_singleton.mp he
    cases h1
    constructor
    · cases hsrc : grapherHas g (o.fromId.getD "")
      · exact absurd hsrc hcond.1
      · rfl
    · cases htgt : grapherHas g (o.toId.getD "")
      · exact absurd htgt hcond.2
      · rfl

theorem parentEvents_shape (g : GraphState) (e : RenderEvent) (he : e ∈ parentEvents g) :
    ∃ c p, e = RenderEvent.setParent c p := by
  unfold parentEvents at he
  split at he
  · rcases List.mem_append.mp he with h | h
    · obtain ⟨p, _, hp⟩ := List.mem_filterMap.mp h
      split at hp
      · exact ⟨_, _, (Option.some.inj hp).symm⟩
      · cases hp
    · obtain ⟨p, _, hp⟩ := List.mem_filterMap.mp h
      split at hp
      · exact ⟨_, _, (Option.some.inj hp).symm⟩
      · cases hp
  · cases he

theorem renderMid_shape (g : GraphState) (e : RenderEvent) (he : e ∈ renderMidEvents g) :
    e = RenderEvent.newGrapher g.compound
    ∨ (∃ p, p ∈ g.clusters ∧ e = RenderEvent.setClusterNode p.1)
    ∨ (∃ p, p ∈ g.nodes ∧ e = RenderEvent.setNode p.1)
    ∨ (∃ c p, e = RenderEvent.setParent c p)
    ∨ (∃ o, o ∈ g.edges ∧ e ∈ edgeEvents g o)
    ∨ e = RenderEvent.setOptions (normalizeDirection g.direction) g.nodeSep g.rankSep := by
  unfold renderMidEvents at he
  rcases List.mem_cons.mp he with h | h
  · exact Or.inl h
  simp only [List.mem_append] at h
  rcases h with ((((h | h) | h) | h) | h)
  · obtain ⟨p, hp, hpe⟩ := List.mem_map.mp h
    exact Or.inr (Or.inl ⟨p, hp, hpe.symm⟩)
  · obtain ⟨p, hp, hpe⟩ := List.mem_map.mp h
    exact Or.inr (Or.inr (Or.inl ⟨p, hp, hpe.symm⟩))
  · exact Or.inr (Or.inr (Or.inr (Or.inl (parentEvents_shape g e h))))
  · obtain ⟨o, ho, hoe⟩ := List.mem_flatMap.mp h
    exact Or.inr (Or.inr (Or.inr (Or.inr (Or.inl ⟨o, ho, hoe⟩))))
  · exact Or.inr (Or.inr (Or.inr (Or.inr (Or.inr (List.mem_singleton.mp h)))))

theorem renderMid_not_pipeline (g : GraphState) (e : RenderEvent) (he : e ∈ renderMidEvents g) :
    isPipelinePhase e = false ∧ touchesContainer e = false := by
  rcases renderMid_shape g e he with h | ⟨p, _, h⟩ | ⟨p, _, h⟩ | ⟨c, p, h⟩ | ⟨o, _, h⟩ | h
  · subst h; exact ⟨rfl, rfl⟩
  · subst h; exact ⟨rfl, rfl⟩
  · subst h; exact ⟨rfl, rfl⟩
  · subst h; exact ⟨rfl, rfl⟩
  · rcases edgeEvents_shape g o e h with ⟨s, t, hs⟩ | ⟨s, t, m, w, hs⟩
    · subst hs; exact ⟨rfl, rfl⟩
    · subst hs; exact ⟨rfl, rfl⟩
  · subst h; exact ⟨rfl, rfl⟩

theorem renderEvents_shape (g : GraphState) (lo : LayoutOutcome) (e : RenderEvent)
    (he : e ∈ renderEvents g lo) :
    e = RenderEvent.clearContainer ∨ e ∈ renderMidEvents g ∨ e ∈ renderPhaseEvents
      ∨ e ∈ renderTailEvents := by
  unfold renderEvents renderSetupEvents at he
  simp only [List.mem_append] at he
  rcases he with (h | h) | h
  · rcases List.mem_cons.mp h with h | h
    · exact Or.inl h
    · exact Or.inr (Or.inl h)
  · exact Or.inr (Or.inr (Or.inl h))
  · unfold renderPostEvents at h
    split at h
    · exact Or.inr (Or.inr (Or.inr h))
    · cases h

theorem render_eq_renderEvents (g : GraphState) (lo : LayoutOutcome) :
    render g lo = Except.ok (renderEvents g lo) := by
  match lo with
  | LayoutOutcome.reject m =>
    simp [render, renderEvents, renderPostEvents, layoutSucceeded]
  | LayoutOutcome.resolve v =>
    by_cases hv : v = "graph-layout-cancelled"
    · simp [render, renderEvents, renderPostEvents, layoutSucceeded, hv]
    · simp [render, renderEvents, renderPostEvents, layoutSucceeded, hv]

theorem foldl_applyToContainer_neutral (es : List RenderEvent)
    (h : ∀ e ∈ es, touchesContainer e = false) :
    ∀ c : Nat, List.foldl applyToContainer c es = c := by
  induction es with
  | nil => intro c; rfl
  | cons e t ih =>
    intro c
    rw [List.foldl_cons]
    have he : touchesContainer e = false := h e (List.mem_cons_self e t)
    have hstep : applyToContainer c e = c := by
      cases e <;> first | rfl | (cases he)
    rw [hstep]
    exact ih (fun x hx => h x (List.mem_cons_of_mem e hx)) c

theorem foldl_jsOn_single {α : Type} (t : String) (cbs : List (α → Except String Unit)) :
    ∀ acc : List (α → Except String Unit),
      List.foldl (fun m cb => jsOn m t cb true) [(t, acc)] cbs = [(t, acc ++ cbs)] := by
  induction cbs with
  | nil => intro acc; simp
  | cons cb tl ih =>
    intro acc
    rw [List.foldl_cons]
    have hstep : jsOn [(t, acc)] t cb true = [(t, acc ++ [cb])] := by
      unfold jsOn hasKey
      simp
    rw [hstep, ih (acc ++ [cb])]
    simp

/-- Claim C1: node and cluster identifiers share a single namespace, and
adding a node or cluster whose id already exists as either a node or a
cluster is rejected without overwriting: the call returns without throwing
and the whole state, in particular the stored entry for that id and both
collections, is unchanged. -/
theorem addNode_addCluster_duplicate_rejected (g : GraphState) (nopts : NodeOpts)
    (copts : ClusterOpts) (key : String)
    (hn : nopts.id = some key) (hc : copts.id = some key) (hne : key ≠ "")
    (hdup : hasKey g.nodes key = true ∨ hasKey g.clusters key = true) :
    addNode g (some nopts) = (g, none) ∧ addCluster g (some copts) = (g, none) := by
  have htrn : truthy nopts.id = true := by rw [hn]; simp [truthy, hne]
  have htrc : truthy copts.id = true := by rw [hc]; simp [truthy, hne]
  have hgetn : nopts.id.getD "" = key := by rw [hn]; rfl
  have hgetc : copts.id.getD "" = key := by rw [hc]; rfl
  have hor : (hasKey g.nodes key || hasKey g.clusters key) = true := by
    rcases hdup with h | h
    · simp [h]
    · simp [h]
  constructor
  · simp [addNode, htrn, hgetn, hor]
  · cases hcomp : g.compound
    · simp [addCluster, hcomp]
    · simp [addCluster, hcomp, htrc, hgetc, hor]

theorem addNode_addCluster_duplicate_rejected_witness :
    addNode graphA (some nodeA) = (graphA, none)
      ∧ addCluster graphA (some clusterA) = (graphA, none) :=
  addNode_addCluster_duplicate_rejected graphA nodeA clusterA "a" rfl rfl
    (by decide) (Or.inl (by decide))

/-- Claim C8: structural errors surface synchronously at the mutating call
and leave no partial effect: `addNode` called without options or with a
missing id, and `addEdge` called without options or with a missing `from`
or `to` field, return the thrown-error message directly from the call (not
through the asynchronous layout resolution) and leave the state, in
particular the node map and the edge list, exactly as before. -/
theorem structural_errors_synchronous (g : GraphState) (nopts : NodeOpts) (eopts : EdgeOpts)
    (hn : truthy nopts.id = false)
    (he : truthy eopts.fromId = false ∨ truthy eopts.toId = false) :
    addNode g none = (g, some "Node options with an id must be provided.")
    ∧ addNode g (some nopts) = (g, some "Node options with an id must be provided.")
    ∧ addEdge g none = (g, some "Edge options with from and to IDs must be provided.")
    ∧ addEdge g (some eopts) = (g, some "Edge options with from and to IDs must be provided.") := by
  refine ⟨rfl, ?_, rfl, ?_⟩
  · simp [addNode, hn]
  · rcases he with he | he <;> simp [addEdge, he]

theorem structural_errors_synchronous_witness :
    addNode graph0 none = (graph0, some "Node options with an id must be provided.")
    ∧ addNode graph0 (some nodeBad) = (graph0, some "Node options with an id must be provided.")
    ∧ addEdge graph0 none = (graph0, some "Edge options with from and to IDs must be provided.")
    ∧ addEdge graph0 (some edgeBad)
        = (graph0, some "Edge options with from and to IDs must be provided.") :=
  structural_errors_synchronous graph0 nodeBad edgeBad (by decide) (Or.inr (by decide))

/-- Claim C9: when the instance was constructed with `compound` disabled,
`addCluster` is a state-level no-op for every input: it does not throw and
leaves the cluster collection, the node map and the edge list unchanged;
consequently a later render of such an instance (whose cluster collection
is empty) performs no cluster registration. -/
theorem addCluster_noncompound_noop (g : GraphState) (copts : Option ClusterOpts)
    (hc : g.compound = false) :
    addCluster g copts = (g, none)
    ∧ (g.clusters = [] →
        ∀ (lo : LayoutOutcome) (key : String),
          RenderEvent.setClusterNode key ∉ renderEvents g lo) := by
  constructor
  · unfold addCluster
    rw [if_pos hc]
  · intro hcl lo key hmem
    rcases renderEvents_shape g lo _ hmem with h | h | h | h
    · cases h
    · rcases renderMid_shape g _ h with h | ⟨p, hp, hpe⟩ | ⟨p, _, hpe⟩ | ⟨c, p, hpe⟩ | ⟨o, _, hoe⟩ | h
      · cases h
      · rw [hcl] at hp; cases hp
      · cases hpe
      · cases hpe
      · rcases edgeEvents_shape g o _ hoe with ⟨s, t, hs⟩ | ⟨s, t, m, w, hs⟩ <;> cases hs
      · cases h
    · simp [renderPhaseEvents] at h
    · simp [renderTailEvents] at h

theorem addCluster_noncompound_noop_witness :
    addCluster graphNC (some clusterA) = (graphNC, none) :=
  (addCluster_noncompound_noop graphNC (some clusterA) rfl).1

/-- Claim C4: the direction-normalisation step of render maps exactly the
two directions `TB` and `BT` onto the single internal orientation value
`vertical` handed to the grapher instance, while `LR` and `RL` are
forwarded unchanged — so the four declared directions are not treated as
fully distinct internally. -/
theorem direction_normalization_collapses (g : GraphState) (lo : LayoutOutcome) :
    RenderEvent.setOptions (normalizeDirection g.direction) g.nodeSep g.rankSep
        ∈ renderEvents g lo
    ∧ ((g.direction = "TB" ∨ g.direction = "BT") → normalizeDirection g.direction = "vertical")
    ∧ (g.direction = "LR" → normalizeDirection g.direction = "LR")
    ∧ (g.direction = "RL" → normalizeDirection g.direction = "RL")
    ∧ normalizeDirection "TB" = normalizeDirection "BT" := by
  refine ⟨?_, ?_, ?_, ?_, by decide⟩
  · unfold renderEvents renderSetupEvents renderMidEvents
    apply List.mem_append_left
    apply List.mem_append_left
    apply List.mem_cons_of_mem
    apply List.mem_cons_of_mem
    exact List.mem_append_right _ (List.mem_singleton.mpr rfl)
  · intro h
    unfold normalizeDirection
    rw [if_pos h]
  · intro h
    rw [h]
    decide
  · intro h
    rw [h]
    decide

theorem direction_normalization_collapses_witness :
    RenderEvent.setOptions "vertical" 50 50 ∈ renderEvents graph0 (LayoutOutcome.resolve "") := by
  have h := direction_normalization_collapses graph0 (LayoutOutcome.resolve "")
  have h2 := h.2.1 (Or.inl rfl)
  have h1 := h.1
  rw [h2] at h1
  exact h1


/-- Claim C3: layout cancellation is a distinct, non-error outcome that
applies no stale geometry: when the layout step resolves to
`graph-layout-cancelled`, render resolves normally (the promise is
fulfilled, not rejected) with a trace that stops right after the layout
step, and the trace contains none of the subsequent steps — style
application, visual update, SVG fitting, listener attachment — so no
coordinates from the cancelled run are applied. -/
theorem render_cancelled_no_stale (g : GraphState) :
    render g (LayoutOutcome.resolve "graph-layout-cancelled")
        = Except.ok (renderSetupEvents g ++ renderPhaseEvents)
    ∧ ∀ e ∈ renderEvents g (LayoutOutcome.resolve "graph-layout-cancelled"),
        e ≠ RenderEvent.applyCustomStyles ∧ e ≠ RenderEvent.update
          ∧ e ≠ RenderEvent.fitSvg ∧ e ≠ RenderEvent.attachListeners := by
  constructor
  · simp [render]
  · intro e he
    have hev : renderEvents g (LayoutOutcome.resolve "graph-layout-cancelled")
        = renderSetupEvents g ++ renderPhaseEvents := by
      unfold renderEvents renderPostEvents layoutSucceeded
      simp
    rw [hev] at he
    rcases List.mem_append.mp he with h | h
    · rcases List.mem_cons.mp h with h | h
      · subst h
        exact ⟨by decide, by decide, by decide, by decide⟩
      · have hp := (renderMid_not_pipeline g e h).1
        refine ⟨?_, ?_, ?_, ?_⟩ <;> (intro hh; subst hh; simp [isPipelinePhase] at hp)
    · simp only [renderPhaseEvents, List.mem_cons, List.not_mem_nil, or_false] at h
      rcases h with rfl | rfl | rfl | rfl <;> exact ⟨by decide, by decide, by decide, by decide⟩

theorem render_cancelled_no_stale_witness :
    render graph0 (LayoutOutcome.resolve "graph-layout-cancelled")
      = Except.ok (renderSetupEvents graph0 ++ renderPhaseEvents) :=
  (render_cancelled_no_stale graph0).1

/-- Claim C6: a render run executes the pipeline phases in strict sequence
on the whole snapshot: the trace is a prefix of non-phase setup actions,
then SVG creation and build, then measure, then the layout step, and the
update phase (with the other post-layout steps) appears only when the
layout resolved successfully, strictly after measure and layout. -/
theorem render_pipeline_sequential (g : GraphState) (lo : LayoutOutcome) :
    ∃ pre, (∀ e ∈ pre, isPipelinePhase e = false)
      ∧ renderEvents g lo =
          pre ++ [RenderEvent.appendSvg, RenderEvent.build, RenderEvent.measure,
              RenderEvent.layoutStart]
            ++ (if layoutSucceeded lo then
                  [RenderEvent.applyCustomStyles, RenderEvent.update, RenderEvent.fitSvg,
                    RenderEvent.attachListeners]
                else []) := by
  refine ⟨renderSetupEvents g, ?_, rfl⟩
  intro e he
  rcases List.mem_cons.mp he with h | h
  · subst h
    rfl
  · exact (renderMid_not_pipeline g e h).1

theorem render_pipeline_sequential_witness :
    ∃ pre, (∀ e ∈ pre, isPipelinePhase e = false)
      ∧ renderEvents graph0 (LayoutOutcome.resolve "") =
          pre ++ [RenderEvent.appendSvg, RenderEvent.build, RenderEvent.measure,
              RenderEvent.layoutStart]
            ++ (if layoutSucceeded (LayoutOutcome.resolve "") then
                  [RenderEvent.applyCustomStyles, RenderEvent.update, RenderEvent.fitSvg,
                    RenderEvent.attachListeners]
                else []) :=
  render_pipeline_sequential graph0 (LayoutOutcome.resolve "")

/-- Claim C7: event delivery is synchronous, ordered and
exception-isolated: emitting an event type after registering any list of
callbacks for it through `on` produces exactly one outcome per callback, in
registration order, each outcome being that callback's own result under the
per-listener try/catch — so a throwing callback is logged and never
prevents a later callback from running, and no exception reaches the
emitter. -/
theorem emit_ordered_isolated {α : Type} (cbs : List (α → Except String Unit)) (t : String)
    (d : α) :
    jsEmit (List.foldl (fun m cb => jsOn m t cb true) [] cbs) t d
      = cbs.map (fun cb => runCb cb d) := by
  match cbs with
  | [] => rfl
  | cb :: tl =>
    have h0 : jsOn ([] : List (String × List (α → Except String Unit))) t cb true
        = [(t, [cb])] := by
      unfold jsOn hasKey
      simp
    rw [List.foldl_cons, h0, foldl_jsOn_single t tl [cb]]
    simp [jsEmit, lookupKey]

theorem emit_ordered_isolated_witness :
    jsEmit (List.foldl (fun m cb => jsOn m "node:click" cb true) [] [cbBoom, cbFine])
        "node:click" 0
      = [EmitOutcome.logged "boom", EmitOutcome.ok] := by
  have h := emit_ordered_isolated [cbBoom, cbFine] "node:click" 0
  rw [h]
  rfl

/-- Claim C2 counterexample: on a state holding only node `a`, `addEdge`
with target id `zz` — which is registered neither as a node nor as a
cluster — does not raise and stores the edge, contradicting the claim that
such a call raises a ReferenceError and leaves the edge unstored. -/
theorem addEdge_missing_endpoint_not_raising :
    (addEdge graphA (some edgeDangling)).2 = none
    ∧ (addEdge graphA (some edgeDangling)).1.edges = [edgeDangling]
    ∧ hasKey graphA.nodes "zz" = false
    ∧ hasKey graphA.clusters "zz" = false := by
  decide

/-- Claim C2 (amended): `addEdge` validates only the presence of the `from`
and `to` fields and never checks endpoint existence: with both fields
present the edge is stored without error even when an endpoint is not
registered; a dangling edge is tolerated unconditionally and handled at
render time, where it produces a skip action and no `setEdge` with a
missing endpoint is ever issued to the layout engine. -/
theorem addEdge_tolerates_dangling (g : GraphState) (o : EdgeOpts)
    (hf : truthy o.fromId = true) (ht : truthy o.toId = true)
    (hmiss : grapherHas g (o.fromId.getD "") = false ∨ grapherHas g (o.toId.getD "") = false) :
    addEdge g (some o) = ({ g with edges := g.edges ++ [o] }, none)
    ∧ (∀ lo : LayoutOutcome,
        RenderEvent.skipEdge (o.fromId.getD "") (o.toId.getD "")
          ∈ renderEvents { g with edges := g.edges ++ [o] } lo)
    ∧ (∀ (lo : LayoutOutcome) (s t : String) (m w : Nat),
        RenderEvent.setEdge s t m w ∈ renderEvents { g with edges := g.edges ++ [o] } lo →
          grapherHas g s = true ∧ grapherHas g t = true) := by
  refine ⟨?_, ?_, ?_⟩
  · simp [addEdge, hf, ht]
  · intro lo
    have hedge : o ∈ ({ g with edges := g.edges ++ [o] } : GraphState).edges :=
      List.mem_append_right _ (List.mem_singleton.mpr rfl)
    have hskip : RenderEvent.skipEdge (o.fromId.getD "") (o.toId.getD "")
        ∈ edgeEvents { g with edges := g.edges ++ [o] } o := by
      have hm2 : grapherHas { g with edges := g.edges ++ [o] } (o.fromId.getD "") = false
          ∨ grapherHas { g with edges := g.edges ++ [o] } (o.toId.getD "") = false := hmiss
      unfold edgeEvents
      rw [if_pos hm2]
      exact List.mem_singleton.mpr rfl
    unfold renderEvents renderSetupEvents renderMidEvents
    apply List.mem_append_left
    apply List.mem_append_left
    apply List.mem_cons_of_mem
    apply List.mem_cons_of_mem
    apply List.mem_append_left
    apply List.mem_append_right
    exact List.mem_flatMap.mpr ⟨o, hedge, hskip⟩
  · intro lo s t m w hmem
    rcases renderEvents_shape _ _ _ hmem with h | h | h | h
    · cases h
    · rcases renderMid_shape _ _ h with h | ⟨p, _, hpe⟩ | ⟨p, _, hpe⟩ | ⟨c, p, hpe⟩ | ⟨o2, _, hoe⟩ | h
      · cases h
      · cases hpe
      · cases hpe
      · cases hpe
      · exact edgeEvents_setEdge_endpoints _ o2 s t m w hoe
      · cases h
    · simp [renderPhaseEvents] at h
    · simp [renderTailEvents] at h

theorem addEdge_tolerates_dangling_witness :
    addEdge graphA (some edgeDangling)
      = ({ graphA with edges := graphA.edges ++ [edgeDangling] }, none) :=
  (addEdge_tolerates_dangling graphA edgeDangling (by decide) (by decide)
    (Or.inr (by decide))).1

/-- Claim C5: in every successful layout every edge satisfies the rank
constraint `rank(target) - rank(source) >= minlen`, with `minlen`
defaulting to 1 for edges added without an explicit value.  The rank
assignment itself is modelled from the spec (dagre.js is not among the
sources): longest-path ranking over a topological order, whose existence is
what makes the layout successful; the edges and their defaulted `minlen`
values are the ones graph.js actually hands to the engine
(`layoutEdges`). -/
theorem layout_rank_constraint (g : GraphState) (topo : List String)
    (hnd : topo.Nodup)
    (horder : ∀ e ∈ layoutEdges g, ∃ t1 t2 t3, topo = t1 ++ e.v :: (t2 ++ e.w :: t3)) :
    (∀ e ∈ layoutEdges g, ∀ rv rw : Int,
        lookupKey (assignRanks (layoutEdges g) topo) e.v = some rv →
        lookupKey (assignRanks (layoutEdges g) topo) e.w = some rw →
        rv + (e.minlen : Int) ≤ rw)
    ∧ (∀ e ∈ layoutEdges g, 1 ≤ e.minlen)
    ∧ (∀ o : EdgeOpts, o.minlen = none → jsOrNat o.minlen 1 = 1) := by
  refine ⟨?_, ?_, ?_⟩
  · intro e he rv rw hv hw
    obtain ⟨t1, t2, t3, ht⟩ := horder e he
    subst ht
    have hassoc : t1 ++ e.v :: (t2 ++ e.w :: t3) = (t1 ++ e.v :: t2) ++ e.w :: t3 := by
      simp
    rw [hassoc] at hv hw hnd
    set A := List.foldl (rankStep (layoutEdges g)) [] (t1 ++ e.v :: t2) with hAdef
    have hfold : assignRanks (layoutEdges g) ((t1 ++ e.v :: t2) ++ e.w :: t3)
        = List.foldl (rankStep (layoutEdges g)) (rankStep (layoutEdges g) A e.w) t3 := by
      unfold assignRanks
      rw [List.foldl_append, List.foldl_cons]
    have hkeysA : keysOf A = t1 ++ e.v :: t2 := by
      rw [hAdef, keysOf_foldl_rankStep]
      rfl
    obtain ⟨rva, hva⟩ := lookupKey_isSome_of_mem A e.v
      (by rw [hkeysA]; exact List.mem_append_right _ (List.mem_cons_self _ _))
    have hwA : lookupKey A e.w = none := by
      apply lookupKey_eq_none_of_not_mem
      rw [hkeysA]
      have hdisj := (List.nodup_append.mp hnd).2.2
      exact fun hmem => hdisj hmem (List.mem_cons_self _ _)
    obtain ⟨restB, hB⟩ :=
      foldl_rankStep_prefix (layoutEdges g) t3 (rankStep (layoutEdges g) A e.w)
    rw [hfold, hB] at hv hw
    have hstep : rankStep (layoutEdges g) A e.w
        = A ++ [(e.w, incomingRank (layoutEdges g) A e.w)] := rfl
    rw [hstep] at hv hw
    have hv3 : lookupKey ((A ++ [(e.w, incomingRank (layoutEdges g) A e.w)]) ++ restB) e.v
        = some rva :=
      lookupKey_append_some _ _ _ _ (lookupKey_append_some _ _ _ _ hva)
    have hrv : rv = rva := by
      rw [hv] at hv3
      exact Option.some.inj hv3
    have hw3 : lookupKey ((A ++ [(e.w, incomingRank (layoutEdges g) A e.w)]) ++ restB) e.w
        = some (incomingRank (layoutEdges g) A e.w) := by
      apply lookupKey_append_some
      rw [lookupKey_append_none _ _ _ hwA, lookupKey_cons]
      simp
    have hrw : rw = incomingRank (layoutEdges g) A e.w := by
      rw [hw] at hw3
      exact Option.some.inj hw3
    have hcand : rva + (e.minlen : Int)
        ∈ (layoutEdges g).filterMap (fun e2 =>
            if e2.w = e.w then (lookupKey A e2.v).map (fun r => r + (e2.minlen : Int))
            else none) := by
      apply List.mem_filterMap.mpr
      exact ⟨e, he, by rw [if_pos rfl, hva]; rfl⟩
    have hle : rva + (e.minlen : Int) ≤ incomingRank (layoutEdges g) A e.w :=
      mem_le_foldl_max _ 0 _ hcand
    rw [hrv, hrw]
    exact hle
  · intro e he
    obtain ⟨o, _, ho⟩ := List.mem_filterMap.mp he
    split at ho
    · cases ho
    · have he2 := Option.some.inj ho
      subst he2
      exact jsOrNat_one_le o.minlen
  · intro o hmin
    rw [hmin]
    rfl

theorem layout_rank_constraint_witness :
    lookupKey (assignRanks (layoutEdges graphABE) topoAB) "a" = some 0
    ∧ lookupKey (assignRanks (layoutEdges graphABE) topoAB) "b" = some 1
    ∧ (0 : Int) + ((1 : Nat) : Int) ≤ 1 := by
  refine ⟨by decide, by decide, ?_⟩
  have horder : ∀ e ∈ layoutEdges graphABE,
      ∃ t1 t2 t3, topoAB = t1 ++ e.v :: (t2 ++ e.w :: t3) := by
    intro e he
    have hle : layoutEdges graphABE = [{ v := "a", w := "b", minlen := 1 }] := by decide
    rw [hle, List.mem_singleton] at he
    subst he
    exact ⟨[], [], [], rfl⟩
  have hmain := (layout_rank_constraint graphABE topoAB (by decide) horder).1
  exact hmain { v := "a", w := "b", minlen := 1 } (by decide) 0 1 (by decide) (by decide)

theorem attemptedParentEvents_shape (calls : List (String × String)) :
    ∀ (pm : List (String × String)) (e : RenderEvent), e ∈ attemptedParentEvents pm calls →
      ∃ c p, e = RenderEvent.setParent c p := by
  induction calls with
  | nil => intro pm e he; cases he
  | cons c rest ih =>
    intro pm e he
    unfold attemptedParentEvents at he
    split at he
    · exact ⟨c.1, c.2, List.mem_singleton.mp he⟩
    · rcases List.mem_cons.mp he with h | h
      · exact ⟨c.1, c.2, h⟩
      · exact ih (pm ++ [c]) e h

theorem attemptedParentEvents_eq_of_ok (calls : List (String × String)) :
    ∀ pm pm2, runSetParents pm calls = Except.ok pm2 →
      attemptedParentEvents pm calls = calls.map (fun c => RenderEvent.setParent c.1 c.2) := by
  induction calls with
  | nil => intro pm pm2 _; rfl
  | cons c rest ih =>
    intro pm pm2 h
    unfold runSetParents at h
    unfold attemptedParentEvents
    split at h
    · cases h
    · rename_i hc
      rw [if_neg hc, List.map_cons, ih (pm ++ [c]) pm2 h]

theorem map_setParent_filterMap {α : Type} (l : List (String × α)) (f : α → Option String) :
    (l.filterMap (fun p => if truthy (f p.2) then some (p.1, (f p.2).getD "") else none)).map
        (fun c => RenderEvent.setParent c.1 c.2)
      = l.filterMap (fun p =>
          if truthy (f p.2) then some (RenderEvent.setParent p.1 ((f p.2).getD "")) else none) := by
  induction l with
  | nil => rfl
  | cons p rest ih =>
    rw [List.filterMap_cons, List.filterMap_cons]
    by_cases h : truthy (f p.2) = true
    · simp [h, ih]
    · simp [h, ih]

theorem parentEvents_eq_map (g : GraphState) :
    parentEvents g = (parentCalls g).map (fun c => RenderEvent.setParent c.1 c.2) := by
  unfold parentEvents parentCalls
  cases hcomp : g.compound
  · simp [hcomp]
  · simp only [hcomp, if_true]
    unfold clusterParentEvents nodeParentEvents
    rw [List.map_append]
    congr 1
    · exact (map_setParent_filterMap g.clusters ClusterOpts.parent).symm
    · exact (map_setParent_filterMap g.nodes NodeOpts.parent).symm

theorem renderAttempt_agrees_on_success (g : GraphState) (lo : LayoutOutcome)
    (hok : renderParentsOk g = true) :
    renderAttemptEvents g lo = renderEvents g lo ∧ renderRun g lo = render g lo := by
  obtain ⟨pm2, hrun⟩ : ∃ pm2, runSetParents [] (parentCalls g) = Except.ok pm2 := by
    unfold renderParentsOk at hok
    cases hr : runSetParents [] (parentCalls g) with
    | ok pm => exact ⟨pm, rfl⟩
    | error m => rw [hr] at hok; cases hok
  have hmap := attemptedParentEvents_eq_of_ok (parentCalls g) [] pm2 hrun
  have h1 : renderAttemptEvents g lo = renderEvents g lo := by
    unfold renderAttemptEvents renderEvents renderSetupEvents renderMidEvents
    rw [hmap, ← parentEvents_eq_map, hok]
    simp [List.append_assoc]
  refine ⟨h1, ?_⟩
  unfold renderRun
  rw [hok]
  simp [h1, render_eq_renderEvents]

/-- Claim C10 counterexample: a self-parenting cluster is stored by
`addCluster` without error, and rendering that state clears the container
(one prior child becomes zero) but never appends an SVG root: the modelled
`setParent` cycle throw of step 3 aborts the run before step 6 and rejects
the promise — contradicting the claim that every render call appends
exactly one new SVG root element after clearing. -/
theorem render_selfparent_no_append :
    (addCluster graph0 (some clusterSelf)).2 = none
    ∧ containerChildren 1 (renderAttemptEvents graphCycle (LayoutOutcome.resolve "")) = 0
    ∧ RenderEvent.appendSvg ∉ renderAttemptEvents graphCycle (LayoutOutcome.resolve "")
    ∧ renderRun graphCycle (LayoutOutcome.resolve "")
        = Except.error "Setting parent would create a cycle."
    ∧ (renderAttemptEvents graphCycle (LayoutOutcome.resolve "")).head?
        = some RenderEvent.clearContainer := by
  refine ⟨rfl, rfl, by decide, rfl, rfl⟩

/-- Claim C10 (amended): every render call first clears all previous
content of the container; a call whose setup completes — whenever the
stored parent relationships create no containment cycle, so the modelled
`setParent` of step 3 does not throw — then appends exactly one new SVG
root, while a call that throws during step 3 leaves the container empty.
Hence the container never accumulates stale geometry: after any number of
successive render calls it holds at most one scene, the one produced by
the last successful run. -/
theorem render_container_clear_then_at_most_one_svg (g : GraphState) (lo : LayoutOutcome)
    (c0 : Nat) :
    (renderAttemptEvents g lo).head? = some RenderEvent.clearContainer
    ∧ containerChildren c0 (renderAttemptEvents g lo)
        = (if renderParentsOk g then 1 else 0) := by
  constructor
  · rfl
  · have hA : ∀ e ∈ g.clusters.map (fun p => RenderEvent.setClusterNode p.1),
        touchesContainer e = false := by
      intro e he
      obtain ⟨p, _, hpe⟩ := List.mem_map.mp he
      subst hpe
      rfl
    have hB : ∀ e ∈ g.nodes.map (fun p => RenderEvent.setNode p.1),
        touchesContainer e = false := by
      intro e he
      obtain ⟨p, _, hpe⟩ := List.mem_map.mp he
      subst hpe
      rfl
    have hP : ∀ e ∈ attemptedParentEvents [] (parentCalls g), touchesContainer e = false := by
      intro e he
      obtain ⟨c, p, hpe⟩ := attemptedParentEvents_shape (parentCalls g) [] e he
      subst hpe
      rfl
    have hF : ∀ e ∈ g.edges.flatMap (edgeEvents g), touchesContainer e = false := by
      intro e he
      obtain ⟨o, _, hoe⟩ := List.mem_flatMap.mp he
      rcases edgeEvents_shape g o e hoe with ⟨s, t, hs⟩ | ⟨s, t, m, w, hs⟩ <;> (subst hs; rfl)
    have htail : List.foldl applyToContainer 0
        (g.edges.flatMap (edgeEvents g)
          ++ [RenderEvent.setOptions (normalizeDirection g.direction) g.nodeSep g.rankSep]
          ++ renderPhaseEvents ++ renderPostEvents lo) = 1 := by
      rw [List.foldl_append, List.foldl_append, List.foldl_append]
      rw [foldl_applyToContainer_neutral _ hF 0]
      have h1 : List.foldl applyToContainer 0
          [RenderEvent.setOptions (normalizeDirection g.direction) g.nodeSep g.rankSep] = 0 := rfl
      rw [h1]
      have h2 : List.foldl applyToContainer 0 renderPhaseEvents = 1 := rfl
      rw [h2]
      unfold renderPostEvents
      split
      · rfl
      · rfl
    unfold containerChildren renderAttemptEvents
    rw [List.foldl_cons, List.foldl_cons]
    have hinit : applyToContainer (applyToContainer c0 RenderEvent.clearContainer)
        (RenderEvent.newGrapher g.compound) = 0 := rfl
    rw [hinit]
    rw [List.foldl_append, List.foldl_append, List.foldl_append]
    rw [foldl_applyToContainer_neutral _ hA 0, foldl_applyToContainer_neutral _ hB 0,
      foldl_applyToContainer_neutral _ hP 0]
    cases hok : renderParentsOk g
    · rw [if_neg (by decide : ¬(false = true)), if_neg (by decide : ¬(false = true))]
      rfl
    · rw [if_pos rfl, if_pos rfl]
      exact htail
